import Mathlib

/-
Verification development for the meetsync recommendation engine
(internal/services/meeting_service.go, calculateRecommendations).

The Go code is embedded shallowly:
  * time.Time instants become Int (the engine only ever compares them);
  * Go maps with string keys become total functions String -> _ whose
    default value is the Go zero value (reading a missing key in Go
    yields the zero value, which is what the engine relies on);
  * the order in which Go iterates the slotAvailability map in the final
    conversion loop is non-deterministic, so it is passed explicitly as
    an extra argument order : List String; a run of the Go code
    corresponds to some order that is a permutation of the distinct
    proposed-slot ids (slotKeys below);
  * sort.Slice is modelled by an insertion sort using the comparator of
    the source (availableCount descending).  For the list sizes used in
    the concrete theorems below (at most two elements) Go's sort.Slice
    performs exactly this insertion sort, so the model is faithful there;
    all general theorems only use that the result is a permutation of
    the input, which sort.Slice also guarantees;
  * dereferencing the possibly-nil Organizer pointer is modelled by
    returning none when the pointer is nil (the Go code panics there).
Struct fields of type time.Time that the engine never reads
(CreatedAt, UpdatedAt, JoinedAt) are omitted from the records.
-/

namespace MeetSync

/-- TimeSlot from internal/models/meeting.go: ID, StartTime, EndTime.
Instants are modelled as Int. -/
structure TimeSlot where
  id : String
  startTime : Int
  endTime : Int
deriving DecidableEq

/-- User from internal/models/user.go: ID, Name, Email. -/
structure User where
  id : String
  name : String
  email : String
deriving DecidableEq

/-- Meeting from internal/models/meeting.go.  Organizer is a pointer in Go,
hence Option User here. -/
structure Meeting where
  id : String
  title : String
  organizerID : String
  organizer : Option User
  estimatedDuration : Int
  proposedSlots : List TimeSlot
  participants : List User
deriving DecidableEq

/-- Availability from internal/models/meeting.go.  Participant is a pointer
in Go, hence Option User here. -/
structure Availability where
  id : String
  participantID : String
  participant : Option User
  meetingID : String
  availableSlots : List TimeSlot
deriving DecidableEq

/-- RecommendedSlot from internal/models/meeting.go.  AvailableCount and
TotalParticipants are Go ints that the engine only ever sets to
non-negative values (a count starting at 0 and a list length), so they are
modelled as Nat. -/
structure RecommendedSlot where
  timeSlot : TimeSlot
  availableCount : Nat
  totalParticipants : Nat
  unavailableParticipants : List User
deriving DecidableEq

/-- The eligibility test of calculateRecommendations (the isValid flag,
meeting_service.go lines 242-255): the participant id is the organizer id
or the id of some invited participant. -/
def isEligible (m : Meeting) (pid : String) : Bool :=
  pid == m.organizerID || m.participants.any (fun p => p.id == pid)

/-- The mutable aggregation state of calculateRecommendations: the
slotAvailability map (slot id to count, zero value 0) and the
participantAvailability map (participant id to slot id to bool, zero
value false). -/
structure CalcState where
  slotAvailability : String → Nat
  participantAvailability : String → String → Bool

/-- The initial state: every count 0, every flag false, exactly as the two
initialisation loops of calculateRecommendations leave the maps. -/
def initState : CalcState :=
  { slotAvailability := fun _ => 0
    participantAvailability := fun _ _ => false }

/-- The inner matching loop of calculateRecommendations (lines 258-266):
for one available slot of one availability record, walk the proposed slots
and, on id equality, increment the count of that proposed slot and set the
participant's flag for it. -/
def processSlotMatch (m : Meeting) (pid : String) (st : CalcState) (s : TimeSlot) : CalcState :=
  m.proposedSlots.foldl
    (fun st ps =>
      if s.id == ps.id then
        { slotAvailability := fun k =>
            if k == ps.id then st.slotAvailability k + 1 else st.slotAvailability k
          participantAvailability := fun p k =>
            if p == pid && k == ps.id then true else st.participantAvailability p k }
      else st)
    st

/-- Processing of one availability record (lines 240-266): ineligible
records are skipped, the slots of eligible records are matched one by one. -/
def processAvailability (m : Meeting) (st : CalcState) (a : Availability) : CalcState :=
  if isEligible m a.participantID then
    a.availableSlots.foldl (processSlotMatch m a.participantID) st
  else st

/-- The aggregation state after the whole availability loop. -/
def engineState (m : Meeting) (avails : List Availability) : CalcState :=
  avails.foldl (processAvailability m) initState

/-- The key set of the slotAvailability and slotMap maps: one key per
distinct proposed-slot id (the initialisation loop inserts slot.ID for
every proposed slot; duplicates land on the same key). -/
def slotKeys (m : Meeting) : List String :=
  (m.proposedSlots.map TimeSlot.id).dedup

/-- Reading slotMap[sid]: the map is built by writing every proposed slot
under its id in order, so the last proposed slot with that id wins; a
missing key yields the Go zero value of TimeSlot. -/
def slotMapFind (m : Meeting) (sid : String) : TimeSlot :=
  ((m.proposedSlots.filter (fun s => s.id == sid)).getLast?).getD ⟨"", 0, 0⟩

/-- Assembling one RecommendedSlot in the conversion loop (lines 282-290):
the slot from slotMap, the count from slotAvailability, the length of
allParticipants = organizer :: participants, and the unavailable list,
which the build loop (lines 270-277) fills per slot id in allParticipants
order with every participant whose flag is false. -/
def buildRecommendation (m : Meeting) (org : User) (st : CalcState) (sid : String) :
    RecommendedSlot :=
  { timeSlot := slotMapFind m sid
    availableCount := st.slotAvailability sid
    totalParticipants := (org :: m.participants).length
    unavailableParticipants :=
      (org :: m.participants).filter (fun p => !(st.participantAvailability p.id sid)) }

/-- Insert step of the sort with the comparator of lines 293-295
(availableCount descending); stable for equal counts. -/
def insertRec (x : RecommendedSlot) : List RecommendedSlot → List RecommendedSlot
  | [] => [x]
  | y :: ys =>
    if y.availableCount ≤ x.availableCount then x :: y :: ys else y :: insertRec x ys

/-- Sort by availableCount descending, modelling sort.Slice of lines
293-295 (see the header comment on faithfulness). -/
def sortByCountDesc : List RecommendedSlot → List RecommendedSlot
  | [] => []
  | x :: xs => insertRec x (sortByCountDesc xs)

/-- calculateRecommendations (meeting_service.go lines 216-298).  The
argument order is the iteration order of the slotAvailability map in the
conversion loop; a Go execution corresponds to some order that is a
permutation of slotKeys m.  A nil Organizer pointer makes line 231 panic,
modelled as none. -/
def calculateRecommendations (m : Meeting) (avails : List Availability)
    (order : List String) : Option (List RecommendedSlot) :=
  match m.organizer with
  | none => none
  | some org =>
      some (sortByCountDesc
        (order.map (buildRecommendation m org (engineState m avails))))

/-- The size of the eligible-participant set as the spec defines it:
organizer and invited participants, deduplicated by id.  This definition
follows the spec words, not the source; it is only used to compare the
spec's totalParticipants against the one computed by the code. -/
def specEligibleCount (m : Meeting) (org : User) : Nat :=
  ((org :: m.participants).map User.id).dedup.length

/-- The per-entry count invariant stated by the spec: availableCount plus
the number of unavailable participants equals totalParticipants. -/
abbrev countInvariant (r : RecommendedSlot) : Prop :=
  r.availableCount + r.unavailableParticipants.length = r.totalParticipants

/-- A concrete organizer used in the concrete-input theorems below. -/
def oU : User := ⟨"u1", "Org", "org@example.com"⟩

/-- A concrete proposed slot (9 to 10). -/
def slot1 : TimeSlot := ⟨"s1", 9, 10⟩

/-- A second concrete proposed slot (14 to 15). -/
def slot2 : TimeSlot := ⟨"s2", 14, 15⟩

/-- A meeting with one proposed slot, organizer only, no invitees. -/
def m1 : Meeting := ⟨"m1", "Sync", "u1", some oU, 60, [slot1], []⟩

/-- A meeting with two proposed slots, organizer only, no invitees. -/
def m3 : Meeting := ⟨"m3", "Sync", "u1", some oU, 60, [slot1, slot2], []⟩

/-- A meeting whose organizer also appears in the invited-participant
list (nothing upstream forbids this: CreateMeeting accepts the organizer
id among the participant ids). -/
def m7 : Meeting := ⟨"m7", "Sync", "u1", some oU, 60, [slot1], [oU]⟩

/-- A meeting with no proposed slots. -/
def m8 : Meeting := ⟨"m8", "Empty", "u1", some oU, 60, [], []⟩

/-- An availability record of the organizer listing the matching slot
twice (AddAvailability accepts this: each copy matches a proposed slot). -/
def a1 : Availability := ⟨"a1", "u1", none, "m1", [slot1, slot1]⟩

/-- An availability record of the organizer whose single slot has the same
start and end instants as slot1 but a different id. -/
def a2 : Availability := ⟨"a2", "u1", none, "m1", [⟨"x", 9, 10⟩]⟩

/-- First of two availability records of the same participant. -/
def b1 : Availability := ⟨"b1", "u1", none, "m1", [slot1]⟩

/-- Second of two availability records of the same participant. -/
def b2 : Availability := ⟨"b2", "u1", none, "m1", [slot1]⟩

/-- An availability record of a user who is neither the organizer nor an
invited participant of m1. -/
def aX : Availability := ⟨"aX", "u9", none, "m1", [slot1]⟩

/-- The output of the engine on m1 with no availabilities. -/
def recs1 : List RecommendedSlot := [⟨slot1, 0, 1, [oU]⟩]

/-- The single entry of recs1. -/
def rec1 : RecommendedSlot := ⟨slot1, 0, 1, [oU]⟩

/-- One insertion step of the sort permutes consing the element. -/
theorem insertRec_perm (x : RecommendedSlot) (l : List RecommendedSlot) :
    (insertRec x l).Perm (x :: l) := by
  induction l with
  | nil => simp [insertRec]
  | cons y ys ih =>
    by_cases h : y.availableCount ≤ x.availableCount
    · simp [insertRec, h]
    · simp only [insertRec, if_neg h]
      exact (ih.cons y).trans (List.Perm.swap x y ys)

/-- The sort of the conversion step returns a permutation of its input,
the guarantee the Go sort package gives for sort.Slice. -/
theorem sortByCountDesc_perm (l : List RecommendedSlot) :
    (sortByCountDesc l).Perm l := by
  induction l with
  | nil => simp [sortByCountDesc]
  | cons x xs ih =>
    exact (insertRec_perm x (sortByCountDesc xs)).trans (ih.cons x)

/-- An ineligible availability record leaves the aggregation state
unchanged: the availability loop skips it before touching any map. -/
theorem processAvailability_skip (m : Meeting) (st : CalcState) (a : Availability)
    (h : isEligible m a.participantID = false) :
    processAvailability m st a = st := by
  simp [processAvailability, h]

/-- When the proposed-slot ids are pairwise distinct, filtering the
proposed slots by the id of a member yields exactly that member. -/
theorem filter_id_eq_single (l : List TimeSlot) (hnd : (l.map TimeSlot.id).Nodup)
    (s : TimeSlot) (hs : s ∈ l) :
    l.filter (fun t => t.id == s.id) = [s] := by
  induction l with
  | nil => cases hs
  | cons x xs ih =>
    rw [List.map_cons, List.nodup_cons] at hnd
    rcases List.mem_cons.mp hs with h | h
    · subst h
      have hnil : xs.filter (fun t => t.id == s.id) = [] := by
        rw [List.filter_eq_nil_iff]
        intro t ht
        simp only [beq_iff_eq]
        intro he
        exact hnd.1 (he ▸ List.mem_map_of_mem TimeSlot.id ht)
      simp [List.filter_cons, hnil]
    · have hx : (x.id == s.id) = false := by
        simp only [beq_eq_false_iff_ne]
        intro he
        have : s.id ∈ xs.map TimeSlot.id := List.mem_map_of_mem TimeSlot.id h
        exact hnd.1 (he ▸ this)
      simp only [List.filter_cons, hx]
      exact ih hnd.2 h

/-- When the proposed-slot ids are pairwise distinct, reading slotMap at
the id of a proposed slot returns that slot. -/
theorem slotMapFind_of_nodup (m : Meeting) (hnd : (m.proposedSlots.map TimeSlot.id).Nodup)
    (s : TimeSlot) (hs : s ∈ m.proposedSlots) :
    slotMapFind m s.id = s := by
  unfold slotMapFind
  rw [filter_id_eq_single m.proposedSlots hnd s hs]
  rfl

/-- Claim C1, evaluated at the failing input: the organizer is the only
eligible participant and their single availability record lists the
matching slot twice; the engine reports availableCount 2, an empty
unavailable list and totalParticipants 1, violating the claimed equation
availableCount + length unavailableParticipants = totalParticipants. -/
theorem duplicate_slot_breaks_count_invariant :
    calculateRecommendations m1 [a1] ["s1"] = some [⟨slot1, 2, 1, []⟩] ∧
      ¬ countInvariant ⟨slot1, 2, 1, []⟩ := by
  decide

/-- Claim C2, evaluated at the failing input: the organizer's record holds
a slot with the same start and end instants as proposed slot slot1 but a
different id; the engine matches by id only, so it reports availableCount
0 and the organizer unavailable, while the claim requires the organizer to
be counted as available. -/
theorem time_equal_slot_not_matched :
    calculateRecommendations m1 [a2] ["s1"] = some [⟨slot1, 0, 1, [oU]⟩] ∧
      a2.availableSlots = [⟨"x", 9, 10⟩] ∧
      (TimeSlot.mk "x" 9 10).startTime = slot1.startTime ∧
      (TimeSlot.mk "x" 9 10).endTime = slot1.endTime := by
  decide

/-- Claim C3, evaluated at the failing input: both proposed slots of m3 tie
at availableCount 0; under the map iteration order [s2, s1], which is a
permutation of the slot key set and hence a possible Go iteration order,
the engine outputs slot2 before slot1, the reverse of their relative order
in ProposedSlots. -/
theorem tie_order_follows_map_iteration :
    List.Perm ["s2", "s1"] (slotKeys m3) ∧
      m3.proposedSlots = [slot1, slot2] ∧
      calculateRecommendations m3 [] ["s2", "s1"] =
        some [⟨slot2, 0, 1, [oU]⟩, ⟨slot1, 0, 1, [oU]⟩] := by
  decide

/-- Claim C5, evaluated at the failing input: the organizer submits two
availability records, each containing the matching slot once; the engine
adds one per record and reports availableCount 2 although only one
distinct participant (of totalParticipants 1) is available. -/
theorem multiple_records_double_count :
    b1.participantID = b2.participantID ∧
      calculateRecommendations m1 [b1, b2] ["s1"] =
        some [⟨slot1, 2, 1, []⟩] := by
  decide

/-- Claim C7, counterexample: the organizer of m7 also appears in its
invited-participant list; the spec's deduplicated eligible set has size 1
but the engine reports totalParticipants 2 (and lists the organizer twice
among the unavailable participants). -/
theorem total_participants_dedup_counterexample :
    calculateRecommendations m7 [] ["s1"] = some [⟨slot1, 0, 2, [oU, oU]⟩] ∧
      specEligibleCount m7 oU = 1 := by
  decide

/-- Claim C9, evaluated at the failing input: the two iteration orders of
the slot key set of m3 are both permutations of that key set, yet they
produce different outputs for identical meeting and availability inputs;
since Go randomises map iteration order across invocations, two calls with
unchanged inputs can return differently ordered lists. -/
theorem output_depends_on_iteration_order :
    List.Perm ["s1", "s2"] (slotKeys m3) ∧
      List.Perm ["s2", "s1"] (slotKeys m3) ∧
      calculateRecommendations m3 [] ["s1", "s2"] ≠
        calculateRecommendations m3 [] ["s2", "s1"] := by
  decide

/-- Claim C10: the engine crashes (modelled as none, for the unguarded nil
pointer dereference of meeting.Organizer at line 231) exactly when the
meeting's Organizer pointer is nil; with a resolved organizer it always
returns a result. -/
theorem organizer_nil_iff_crash (m : Meeting) (avails : List Availability)
    (order : List String) :
    calculateRecommendations m avails order = none ↔ m.organizer = none := by
  cases h : m.organizer <;> simp [calculateRecommendations, h]

/-- Claim C8: for a meeting with no proposed slots and a resolved
organizer, the engine returns the empty list (not an error), for every
availability collection and every iteration order of the (empty) slot key
set. -/
theorem empty_slots_empty_result (m : Meeting) (avails : List Availability)
    (order : List String) (o : User) (horg : m.organizer = some o)
    (hslots : m.proposedSlots = []) (hperm : order.Perm (slotKeys m)) :
    calculateRecommendations m avails order = some [] := by
  have hkeys : slotKeys m = [] := by simp [slotKeys, hslots]
  have horder : order = [] := List.perm_nil.mp (hkeys ▸ hperm)
  simp [calculateRecommendations, horg, horder, sortByCountDesc]

/-- Witness for empty_slots_empty_result at the concrete meeting m8. -/
theorem empty_slots_empty_result_witness :
    m8.organizer = some oU ∧ m8.proposedSlots = [] ∧
      List.Perm [] (slotKeys m8) ∧
      calculateRecommendations m8 [] [] = some [] :=
  ⟨rfl, rfl, by decide, empty_slots_empty_result m8 [] [] oU rfl rfl (by decide)⟩

/-- Claim C6: an availability record whose participant id is neither the
meeting's organizer id nor the id of an invited participant has no effect
on the output: the result equals the result with that record removed. -/
theorem ineligible_record_no_effect (m : Meeting) (pre post : List Availability)
    (a : Availability) (order : List String)
    (h : isEligible m a.participantID = false) :
    calculateRecommendations m (pre ++ a :: post) order =
      calculateRecommendations m (pre ++ post) order := by
  have hst : engineState m (pre ++ a :: post) = engineState m (pre ++ post) := by
    unfold engineState
    rw [List.foldl_append, List.foldl_append, List.foldl_cons,
      processAvailability_skip m _ a h]
  cases ho : m.organizer <;> simp [calculateRecommendations, ho, hst]

/-- Witness for ineligible_record_no_effect: the record aX of the
uninvited user u9 does not change the output of the engine on m1. -/
theorem ineligible_record_no_effect_witness :
    isEligible m1 aX.participantID = false ∧
      calculateRecommendations m1 ([] ++ aX :: []) ["s1"] =
        calculateRecommendations m1 ([] ++ []) ["s1"] :=
  ⟨by decide, ineligible_record_no_effect m1 [] [] aX ["s1"] (by decide)⟩

/-- Claim C7 as amended: totalParticipants of every produced entry equals
one plus the number of invited-participant entries of the meeting, with no
deduplication by id; in particular it is identical across all entries of
one invocation. -/
theorem total_participants_no_dedup (m : Meeting) (avails : List Availability)
    (order : List String) (recs : List RecommendedSlot)
    (h : calculateRecommendations m avails order = some recs) :
    ∀ r ∈ recs, r.totalParticipants = m.participants.length + 1 := by
  intro r hr
  cases ho : m.organizer with
  | none => simp [calculateRecommendations, ho] at h
  | some o =>
    simp only [calculateRecommendations, ho, Option.some.injEq] at h
    subst h
    have hr2 : r ∈ order.map (buildRecommendation m o (engineState m avails)) :=
      ((sortByCountDesc_perm _).mem_iff).mp hr
    obtain ⟨sid, _, hbuild⟩ := List.mem_map.mp hr2
    rw [← hbuild]
    simp [buildRecommendation]

/-- Witness for total_participants_no_dedup at the concrete meeting m1. -/
theorem total_participants_no_dedup_witness :
    calculateRecommendations m1 [] ["s1"] = some recs1 ∧
      rec1.totalParticipants = m1.participants.length + 1 := by
  have h : calculateRecommendations m1 [] ["s1"] = some recs1 := by decide
  exact ⟨h, total_participants_no_dedup m1 [] ["s1"] recs1 h rec1 (by decide)⟩

/-- Claim C4: with a resolved organizer, pairwise-distinct proposed-slot
ids (the data-model invariant of the spec) and an iteration order covering
the slot key set, the engine returns exactly one entry per proposed slot:
as many entries as proposed slots, and the slots carried by the entries
are a permutation of ProposedSlots (none dropped, none invented). -/
theorem one_entry_per_slot (m : Meeting) (avails : List Availability)
    (order : List String) (o : User) (recs : List RecommendedSlot)
    (horg : m.organizer = some o)
    (hnd : (m.proposedSlots.map TimeSlot.id).Nodup)
    (hperm : order.Perm (slotKeys m))
    (h : calculateRecommendations m avails order = some recs) :
    recs.length = m.proposedSlots.length ∧
      (recs.map RecommendedSlot.timeSlot).Perm m.proposedSlots := by
  simp only [calculateRecommendations, horg, Option.some.injEq] at h
  subst h
  have hA : ((sortByCountDesc
        (order.map (buildRecommendation m o (engineState m avails)))).map
          RecommendedSlot.timeSlot).Perm
      ((order.map (buildRecommendation m o (engineState m avails))).map
        RecommendedSlot.timeSlot) :=
    (sortByCountDesc_perm _).map _
  have h2 : (order.map (buildRecommendation m o (engineState m avails))).map
      RecommendedSlot.timeSlot = order.map (slotMapFind m) := by
    rw [List.map_map]; rfl
  rw [h2] at hA
  have hB := hperm.map (slotMapFind m)
  have h4 : (slotKeys m).map (slotMapFind m) = m.proposedSlots := by
    unfold slotKeys
    rw [List.dedup_eq_self.mpr hnd, List.map_map]
    have hcongr : m.proposedSlots.map (slotMapFind m ∘ TimeSlot.id) =
        m.proposedSlots.map id :=
      List.map_congr_left (fun s hs => slotMapFind_of_nodup m hnd s hs)
    rw [hcongr, List.map_id]
  rw [h4] at hB
  have hts := hA.trans hB
  refine ⟨?_, hts⟩
  have := hts.length_eq
  simpa using this

/-- Witness for one_entry_per_slot at the concrete meeting m1. -/
theorem one_entry_per_slot_witness :
    calculateRecommendations m1 [] ["s1"] = some recs1 ∧
      recs1.length = m1.proposedSlots.length ∧
      (recs1.map RecommendedSlot.timeSlot).Perm m1.proposedSlots := by
  have h : calculateRecommendations m1 [] ["s1"] = some recs1 := by decide
  exact ⟨h, one_entry_per_slot m1 [] ["s1"] oU recs1 rfl (by decide) (by decide) h⟩

end MeetSync
